import Mathlib

/-!
Shallow embedding of the fabulist core runtime and fabulist_lang AST builders,
with theorems checking the specification's claims against the code.

Rust idioms are rendered as follows: `Result<T, E>` becomes `Except E T`;
`&mut State` methods become explicit state passing, returning the updated
state together with the result (the state is returned on the error path too,
since a `&mut` borrow leaves whatever mutations happened before the error);
`usize` becomes `Nat`; `String` stays `String`.
-/

namespace Fabulist

namespace Core

/-- Modelled from the spec: `DialogueIndex`, the engine's public position
token `{part_key: String, dialogue_index: usize}` (declared in
`fabulist_core::state`, not among the reviewed sources). -/
structure DialogueIndex where
  part_key : String
  dialogue_index : Nat
deriving DecidableEq, Repr

/-- Modelled from the spec: the runtime error type of `fabulist_core`
(`fabulist_core::error::Error`, not among the reviewed sources); the two
variants used by `Part` are `EndOfStory` and
`DialogueDoesNotExist {dialogue_index, part_key}`. -/
inductive CoreError where
  | EndOfStory
  | DialogueDoesNotExist (dialogue_index : Nat) (part_key : String)
deriving DecidableEq, Repr

/-- Modelled from the spec: `RuntimeState`
`{current_part: Option<PartId>, current_dialogue: Option<usize>, variables: ...}`
(`fabulist_core::state::State`, not among the reviewed sources). The
representation of the variable bindings is unspecified in the spec; they are
modelled as an association list, which suffices to express that an operation
leaves them untouched. -/
structure State where
  current_part : Option String
  current_dialogue : Option Nat
  -- `variables` in the spec; `variables` is reserved in Lean, hence `vars`.
  vars : List (String × String)
deriving DecidableEq, Repr

/-- Modelled from the spec: "`reset()` clears both cursor fields". -/
def State.reset (s : State) : State :=
  { s with current_part := none, current_dialogue := none }

/-- Modelled from the spec: setter used by `Part::next`. -/
def State.set_current_part (s : State) (p : Option String) : State :=
  { s with current_part := p }

/-- Modelled from the spec: setter used by `Part::next`. -/
def State.set_current_dialogue (s : State) (d : Option Nat) : State :=
  { s with current_dialogue := d }

/-- Modelled from the spec: the `Dialogue` black box, "opaque; exposes
`next(state, choice_index) -> Result<Option<PartId>>`". Since the Rust
signature takes `&mut State`, the model returns the (possibly mutated) state
alongside the result on every path. -/
structure Dialogue where
  next : State → Option Nat → State × Except CoreError (Option String)

/-- `Part` from `fabulist_core/src/story/part.rs`: `{id, dialogues}`. -/
structure Part where
  id : String
  dialogues : List Dialogue

/-- `Part::dialogue` from `part.rs`: `dialogues.get(index)`, erring with
`DialogueDoesNotExist {dialogue_index: index, part_key: id.clone()}` when the
index is out of range. -/
def Part.dialogue (p : Part) (index : Nat) : Except CoreError Dialogue :=
  match p.dialogues[index]? with
  | some dialogue => .ok dialogue
  | none => .error (.DialogueDoesNotExist index p.id)

/-- `<Part as Progressive>::next` from `part.rs`. The `?` on
`self.dialogue(dialogue_index)` propagates the error with the state untouched;
the `?` on `dialogue.next(state, choice_index)` propagates the error with
whatever state the dialogue left behind; the shared fall-through tail runs
`state.reset()` and fails with `EndOfStory`. -/
def Part.next (p : Part) (state : State) (choice_index : Option Nat) :
    State × Except CoreError DialogueIndex :=
  if state.current_dialogue.isNone then
    if ¬p.dialogues.isEmpty then
      (state.set_current_dialogue (some 0),
       .ok ⟨p.id, 0⟩)
    else
      (state.reset, .error .EndOfStory)
  else
    match state.current_dialogue with
    | some dialogue_index =>
      match p.dialogue dialogue_index with
      | .error e => (state, .error e)
      | .ok dialogue =>
        match dialogue.next state choice_index with
        | (state', .error e) => (state', .error e)
        | (state', .ok next_result) =>
          match next_result with
          | some next_part =>
            ((state'.set_current_part (some next_part)).set_current_dialogue (some 0),
             .ok ⟨next_part, 0⟩)
          | none =>
            let next_dialogue_index := dialogue_index + 1
            if p.dialogues[next_dialogue_index]?.isSome then
              (state'.set_current_dialogue (some next_dialogue_index),
               .ok ⟨p.id, next_dialogue_index⟩)
            else
              (state'.reset, .error .EndOfStory)
    -- unreachable: the outer guard established `current_dialogue.isSome`;
    -- kept to mirror the `if let` falling through to the shared tail.
    | none => (state.reset, .error .EndOfStory)

/-- The documented reset state: both cursor fields cleared. -/
def State.isReset (s : State) : Prop :=
  s.current_part = none ∧ s.current_dialogue = none

instance (s : State) : Decidable s.isReset := by
  unfold State.isReset; infer_instance

/-- A dialogue that always signals "continue within this part" and leaves the
state untouched; used as a concrete test dialogue. -/
def constDialogue : Dialogue := ⟨fun t _ => (t, .ok none)⟩

/-- A part with no dialogues, used as a concrete test part. -/
def emptyPart : Part := ⟨"p", []⟩

/-- A part with a single continue-only dialogue. -/
def onePart : Part := ⟨"p1", [constDialogue]⟩

/-- A part with two dialogues. -/
def twoPart : Part := ⟨"p2", [constDialogue, constDialogue]⟩

/-- A state whose dialogue cursor is set although no consistent part cursor
or part contents need exist; used to probe `Part::next` on an empty part. -/
def stuckState : State := ⟨none, some 0, []⟩

end Core

namespace Lang

/-- The grammar rules of `fabulist_lang::parser::Rule` that the reviewed
lowering code dispatches on (the grammar itself is out of scope); `literal`
stands for the primitive literal rules the spec mentions. -/
inductive Rule where
  | expression
  | identifier
  | path
  | literal
  | statement
  | block_stmt
  | if_stmt
  | let_stmt
  | goto_stmt
  | else_stmt
  | object
  | arguments
  | argument_body
  | quote_decl
deriving DecidableEq, Repr

/-- `OwnedSpan` from `fabulist_lang/src/error.rs`: an owned copy of the
source text plus start/end offsets. (`end` is reserved in Lean, hence
`stop`.) -/
structure OwnedSpan where
  input : String
  start : Nat
  stop : Nat
deriving DecidableEq, Repr

/-- The diagnostics produced by lowering: a span-anchored message, as built
by `Error::map_span` (modelled from the spec: `map_span` itself is not among
the reviewed sources; `error.rs` shows the span+message shape via
`map_custom_error`). The `unreachablePanic` variant models the
`unreachable!()` arm in `Stmt::try_from`, which diverges rather than
returning a diagnostic. -/
inductive LangError where
  | mapSpan (span : OwnedSpan) (message : String)
  | unreachablePanic
deriving DecidableEq, Repr

/-- `Error::map_span(span, message)`: combine a captured span and a message
into a positioned error. -/
def LangError.map_span (span : OwnedSpan) (message : String) : LangError :=
  .mapSpan span message

/-- A generic parse-tree node (`pest::iterators::Pair`): rule tag, optional
node tag, matched text (`as_str`), span, and ordered children
(`into_inner`). -/
inductive Node where
  | mk (rule : Rule) (tag : Option String) (str : String) (span : OwnedSpan)
      (children : List Node)

/-- `Pair::as_rule`. -/
def Node.rule : Node → Rule
  | .mk r _ _ _ _ => r

/-- `Pair::as_node_tag`. -/
def Node.tag : Node → Option String
  | .mk _ t _ _ _ => t

/-- `Pair::as_str`. -/
def Node.str : Node → String
  | .mk _ _ s _ _ => s

/-- `Pair::as_span`, already owned. -/
def Node.span : Node → OwnedSpan
  | .mk _ _ _ sp _ => sp

/-- `Pair::into_inner`, as the list of direct children. -/
def Node.children : Node → List Node
  | .mk _ _ _ _ cs => cs

mutual

/-- Pre-order traversal of a node and all its descendants, mirroring
`pest::iterators::Pairs::flatten` (each pair followed by its inner pairs). -/
def Node.preorder : Node → List Node
  | .mk r t s sp cs => .mk r t s sp cs :: Node.preorderList cs

/-- Pre-order traversal of a forest. -/
def Node.preorderList : List Node → List Node
  | [] => []
  | n :: ns => n.preorder ++ Node.preorderList ns

end

/-- `Pairs::find_first_tagged(tag)`: the first pair, searching the flattened
(pre-order) iterator, whose node tag is `tag`. -/
def findFirstTagged (pairs : List Node) (tag : String) : Option Node :=
  (Node.preorderList pairs).find? (fun n => n.tag == some tag)

/-- `Iterator::find` on a `mut` pairs iterator: returns the first match and
the remaining (consumed-past) suffix, so a later `find` resumes after it. -/
def findConsume (p : Node → Bool) : List Node → Option (Node × List Node)
  | [] => none
  | n :: ns => if p n then some (n, ns) else findConsume p ns

mutual

theorem sizeOf_le_of_mem_preorder : ∀ {n m : Node}, m ∈ n.preorder → sizeOf m ≤ sizeOf n
  | .mk r t s sp cs, m, h => by
    rw [Node.preorder] at h
    rcases List.mem_cons.mp h with h1 | h1
    · subst h1; exact Nat.le_refl _
    · have := sizeOf_lt_of_mem_preorderList h1
      simp only [Node.mk.sizeOf_spec]
      omega

theorem sizeOf_lt_of_mem_preorderList :
    ∀ {cs : List Node} {m : Node}, m ∈ Node.preorderList cs → sizeOf m < sizeOf cs
  | [], m, h => by rw [Node.preorderList] at h; cases h
  | c :: cs', m, h => by
    rw [Node.preorderList] at h
    rcases List.mem_append.mp h with h1 | h1
    · have := sizeOf_le_of_mem_preorder h1
      simp only [List.cons.sizeOf_spec]
      omega
    · have := sizeOf_lt_of_mem_preorderList h1
      simp only [List.cons.sizeOf_spec]
      omega

end

theorem sizeOf_lt_of_findFirstTagged {cs : List Node} {tag : String} {n : Node}
    (h : findFirstTagged cs tag = some n) : sizeOf n < sizeOf cs :=
  sizeOf_lt_of_mem_preorderList (List.mem_of_find?_eq_some h)

theorem findConsume_mem {p : Node → Bool} :
    ∀ {l : List Node} {n : Node} {rest : List Node},
      findConsume p l = some (n, rest) → n ∈ l
  | [], _, _, h => by rw [findConsume] at h; cases h
  | c :: cs, n, rest, h => by
    rw [findConsume] at h
    by_cases hp : p c
    · rw [if_pos hp] at h
      cases h
      exact List.mem_cons_self _ _
    · rw [if_neg hp] at h
      exact List.mem_cons_of_mem _ (findConsume_mem h)

theorem findConsume_rest_sizeOf {p : Node → Bool} :
    ∀ {l : List Node} {n : Node} {rest : List Node},
      findConsume p l = some (n, rest) → sizeOf rest < sizeOf l
  | [], _, _, h => by rw [findConsume] at h; cases h
  | c :: cs, n, rest, h => by
    rw [findConsume] at h
    by_cases hp : p c
    · rw [if_pos hp] at h
      cases h
      simp only [List.cons.sizeOf_spec]
      omega
    · rw [if_neg hp] at h
      have := findConsume_rest_sizeOf h
      simp only [List.cons.sizeOf_spec]
      omega

theorem sizeOf_children_lt (value : Node) : sizeOf value.children < sizeOf value := by
  cases value with
  | mk r t s sp cs =>
    simp only [Node.children, Node.mk.sizeOf_spec]
    omega

/-- `BinaryOperator` from `fabulist_lang/src/ast/expr/binary.rs`. -/
inductive BinaryOperator where
  | Divide
  | Multiply
  | Addition
  | Subtraction
  | GreaterThan
  | GreaterEqual
  | LessThan
  | LessEqual
  | EqualEqual
  | NotEqual
  | And
  | Or
deriving DecidableEq, Repr

mutual

/-- The expression AST: per the spec, primitives (literal/identifier/path,
collapsed here into one token-carrying variant) and binary expressions. -/
inductive Expr where
  | primitive (str : String)
  | binary (b : BinaryExpr)

/-- `BinaryExpr` from `binary.rs`:
`{left: Expr, operator: Option<BinaryOperator>, right: Option<Expr>}`. -/
inductive BinaryExpr where
  | mk (left : Expr) (operator : Option BinaryOperator) (right : Option Expr)

end

/-- Field accessor for `BinaryExpr.left`. -/
def BinaryExpr.left : BinaryExpr → Expr
  | .mk l _ _ => l

/-- Field accessor for `BinaryExpr.operator`. -/
def BinaryExpr.operator : BinaryExpr → Option BinaryOperator
  | .mk _ o _ => o

/-- Field accessor for `BinaryExpr.right`. -/
def BinaryExpr.right : BinaryExpr → Option Expr
  | .mk _ _ r => r

/-- The operator-token match inside `BinaryExpr::try_from` (binary.rs lines
43-57), factored into a named function: the twelve operator tokens map to
their variants, any other token fails with "Invalid binary operator"
anchored at the operator capture's span. -/
def matchBinaryOperator (s : String) (operator_span : OwnedSpan) :
    Except LangError BinaryOperator :=
  if s = "/" then .ok .Divide
  else if s = "*" then .ok .Multiply
  else if s = "+" then .ok .Addition
  else if s = "-" then .ok .Subtraction
  else if s = ">" then .ok .GreaterThan
  else if s = ">=" then .ok .GreaterEqual
  else if s = "<" then .ok .LessThan
  else if s = "<=" then .ok .LessEqual
  else if s = "==" then .ok .EqualEqual
  else if s = "!=" then .ok .NotEqual
  else if s = "&&" then .ok .And
  else if s = "||" then .ok .Or
  else .error (LangError.map_span operator_span "Invalid binary operator")

mutual

/-- Modelled from the spec: `Expr::try_from` is not among the reviewed
sources; per the spec the expression AST is "primitives
(literal/identifier/path) and binary expressions", so lowering dispatches on
the rule: the primitive rules lower to a primitive carrying the token text,
anything else goes through the binary-expression builder. -/
def Expr.tryFrom (value : Node) : Except LangError Expr :=
  match value.rule with
  | .identifier => .ok (.primitive value.str)
  | .path => .ok (.primitive value.str)
  | .literal => .ok (.primitive value.str)
  | _ => (BinaryExpr.tryFrom value).map Expr.binary
termination_by (sizeOf value, 1)
decreasing_by
  exact Prod.Lex.right _ (Nat.lt_succ_self 0)

/-- `BinaryExpr::try_from` (binary.rs lines 30-72): captures the span, then
independently looks up the `left`, `operator` and `right` tagged captures;
a missing `left` is "Expected a value expression" at the node's span, the
operator token goes through `matchBinaryOperator`, and `operator`/`right`
are each `None` when their capture is absent. -/
def BinaryExpr.tryFrom (value : Node) : Except LangError BinaryExpr := do
  let value_span := value.span
  let left ← match hl : findFirstTagged value.children "left" with
    | some left => Expr.tryFrom left
    | none => Except.error (LangError.map_span value_span "Expected a value expression")
  let operator ← match findFirstTagged value.children "operator" with
    | some operator => (matchBinaryOperator operator.str operator.span).map some
    | none => pure none
  let right ← match hr : findFirstTagged value.children "right" with
    | some right => (Expr.tryFrom right).map some
    | none => pure none
  return BinaryExpr.mk left operator right
termination_by (sizeOf value, 0)
decreasing_by
  · exact Prod.Lex.left _ _
      (Nat.lt_trans (sizeOf_lt_of_findFirstTagged hr) (sizeOf_children_lt value))
  · exact Prod.Lex.left _ _
      (Nat.lt_trans (sizeOf_lt_of_findFirstTagged hl) (sizeOf_children_lt value))

end

/-- Modelled from the spec: primitive expressions (literal/identifier/path);
`Primitive::try_from` is not among the reviewed sources, so it is modelled as
carrying the matched token text. -/
structure Primitive where
  str : String
deriving DecidableEq, Repr

/-- Modelled from the spec: lowering of a primitive token. -/
def Primitive.tryFrom (value : Node) : Except LangError Primitive :=
  .ok ⟨value.str⟩

/-- `LetStmt` from `stmt.rs`: `{identifier: Primitive, value: Expr, lcol}`
(the `LineColLocation` is derived from the span and modelled by the span). -/
structure LetStmt where
  identifier : Primitive
  value : Expr
  lcol : OwnedSpan

/-- `GotoStmt` from `stmt.rs`: `{path: Primitive, lcol}`. -/
structure GotoStmt where
  path : Primitive
  lcol : OwnedSpan

/-- `LetStmt::try_from` (stmt.rs lines 132-154): a `mut inner` iterator is
searched for the `identifier` rule, then — resuming after it — for the pair
tagged `value`. -/
def LetStmt.tryFrom (value : Node) : Except LangError LetStmt :=
  let value_span := value.span
  let value_lcol := value_span
  match findConsume (fun pair => pair.rule == Rule.identifier) value.children with
  | none => .error (LangError.map_span value_span "Expected an identifier")
  | some (identifier, rest) =>
    match Primitive.tryFrom identifier with
    | .error e => .error e
    | .ok ident =>
      match findConsume (fun pair => pair.tag == some "value") rest with
      | none => .error (LangError.map_span value_span "Expected value expression")
      | some (expression, _) =>
        (Expr.tryFrom expression).map (fun v => LetStmt.mk ident v value_lcol)

/-- `GotoStmt::try_from` (stmt.rs lines 156-172): find the `path` rule among
the children. -/
def GotoStmt.tryFrom (value : Node) : Except LangError GotoStmt :=
  let value_span := value.span
  let value_lcol := value_span
  match value.children.find? (fun pair => pair.rule == Rule.path) with
  | some path => (Primitive.tryFrom path).map (fun p => GotoStmt.mk p value_lcol)
  | none => .error (LangError.map_span value_span "Expected path expression")

mutual

/-- `Stmt` from `stmt.rs`: block, if, let and goto variants. -/
inductive Stmt where
  | block (b : BlockStmt)
  | ifStmt (i : IfStmt)
  | letStmt (l : LetStmt)
  | gotoStmt (g : GotoStmt)

/-- `BlockStmt`: `{statements: Vec<Stmt>, lcol}`. -/
inductive BlockStmt where
  | mk (statements : List Stmt) (lcol : OwnedSpan)

/-- `IfStmt`: `{condition, block_stmt, else_stmt: Option<ElseClause>, lcol}`. -/
inductive IfStmt where
  | mk (condition : Expr) (block_stmt : BlockStmt) (else_stmt : Option ElseClause)
      (lcol : OwnedSpan)

/-- `ElseClause` from `stmt.rs`: either a chained `if` or a block. -/
inductive ElseClause where
  | ifClause (i : IfStmt)
  | blockClause (b : BlockStmt)

end

mutual

/-- `Stmt::try_from` (stmt.rs lines 69-85): dispatch on the rule; a
`statement` wrapper recurses into its first child (`unreachable!()` when
empty, modelled as the `unreachablePanic` error), the four statement rules
delegate to their builders, and any other rule is "Invalid statement". -/
def Stmt.tryFrom (value : Node) : Except LangError Stmt :=
  let stmt_span := value.span
  match value.rule with
  | .statement =>
    match hc : value.children with
    | inner :: _ => Stmt.tryFrom inner
    | [] => .error .unreachablePanic
  | .block_stmt => (BlockStmt.tryFrom value).map Stmt.block
  | .if_stmt => (IfStmt.tryFrom value).map Stmt.ifStmt
  | .let_stmt => (LetStmt.tryFrom value).map Stmt.letStmt
  | .goto_stmt => (GotoStmt.tryFrom value).map Stmt.gotoStmt
  | _ => .error (LangError.map_span stmt_span "Invalid statement")
termination_by (sizeOf value, 1)
decreasing_by
  · have h1 : inner ∈ value.children := by
      rw [hc]; exact List.mem_cons_self _ _
    exact Prod.Lex.left _ _
      (Nat.lt_trans (List.sizeOf_lt_of_mem h1) (sizeOf_children_lt value))
  · exact Prod.Lex.right _ (Nat.lt_succ_self 0)
  · exact Prod.Lex.right _ (Nat.lt_succ_self 0)

/-- `value.into_inner().map(Stmt::try_from).collect::<Result<Vec<Stmt>,_>>()`
from `BlockStmt::try_from`: lower each child in order, stopping at the first
error. -/
def stmtsFromList (cs : List Node) : Except LangError (List Stmt) :=
  match cs with
  | [] => .ok []
  | c :: rest => do
    let s ← Stmt.tryFrom c
    let ss ← stmtsFromList rest
    return s :: ss
termination_by (sizeOf cs, 0)
decreasing_by
  · exact Prod.Lex.left _ _ (by simp only [List.cons.sizeOf_spec]; omega)
  · exact Prod.Lex.left _ _ (by simp only [List.cons.sizeOf_spec]; omega)

/-- `BlockStmt::try_from` (stmt.rs lines 87-101): collect the lowering of
every child, fail-fast. -/
def BlockStmt.tryFrom (value : Node) : Except LangError BlockStmt :=
  let value_lcol := value.span
  (stmtsFromList value.children).map
    (fun statements => BlockStmt.mk statements value_lcol)
termination_by (sizeOf value, 0)
decreasing_by
  · exact Prod.Lex.left _ _ (sizeOf_children_lt value)

/-- `IfStmt::try_from` (stmt.rs lines 103-130): sequentially (on a `mut`
iterator) find the pair tagged `condition`, then the `block_stmt` rule, then
an optional `else_stmt` rule; missing required captures are span-anchored
errors at the whole node's span. -/
def IfStmt.tryFrom (value : Node) : Except LangError IfStmt :=
  let value_span := value.span
  let value_lcol := value_span
  match hc : findConsume (fun pair => pair.tag == some "condition") value.children with
  | none => .error (LangError.map_span value_span "Expected condition expression")
  | some (condition, rest₁) =>
    match Expr.tryFrom condition with
    | .error e => .error e
    | .ok cond =>
      match hb : findConsume (fun pair => pair.rule == Rule.block_stmt) rest₁ with
      | none => .error (LangError.map_span value_span "Expected block statement")
      | some (block_stmt, rest₂) =>
        match BlockStmt.tryFrom block_stmt with
        | .error e => .error e
        | .ok block =>
          match he : findConsume (fun pair => pair.rule == Rule.else_stmt) rest₂ with
          | some (else_stmt, _) =>
            (ElseClause.tryFrom else_stmt).map
              (fun ec => IfStmt.mk cond block (some ec) value_lcol)
          | none => .ok (IfStmt.mk cond block none value_lcol)
termination_by (sizeOf value, 0)
decreasing_by
  · exact Prod.Lex.left _ _
      (Nat.lt_trans (List.sizeOf_lt_of_mem (findConsume_mem hb))
        (Nat.lt_trans (findConsume_rest_sizeOf hc) (sizeOf_children_lt value)))
  · exact Prod.Lex.left _ _
      (Nat.lt_trans (List.sizeOf_lt_of_mem (findConsume_mem he))
        (Nat.lt_trans (findConsume_rest_sizeOf hb)
          (Nat.lt_trans (findConsume_rest_sizeOf hc) (sizeOf_children_lt value))))

/-- `ElseClause::try_from` (stmt.rs lines 14-31): a cloned find for an
`if_stmt` child, falling back to a find for a `block_stmt` child. -/
def ElseClause.tryFrom (value : Node) : Except LangError ElseClause :=
  let value_span := value.span
  match hi : value.children.find? (fun pair => pair.rule == Rule.if_stmt) with
  | some if_stmt => (IfStmt.tryFrom if_stmt).map ElseClause.ifClause
  | none =>
    match hb : value.children.find? (fun pair => pair.rule == Rule.block_stmt) with
    | some block_stmt => (BlockStmt.tryFrom block_stmt).map ElseClause.blockClause
    | none => .error (LangError.map_span value_span "Expected an `if` or `block` statement")
termination_by (sizeOf value, 0)
decreasing_by
  · exact Prod.Lex.left _ _
      (Nat.lt_trans (List.sizeOf_lt_of_mem (List.mem_of_find?_eq_some hi))
        (sizeOf_children_lt value))
  · exact Prod.Lex.left _ _
      (Nat.lt_trans (List.sizeOf_lt_of_mem (List.mem_of_find?_eq_some hb))
        (sizeOf_children_lt value))

end

/-- `ArgumentBodyDfn` from `argument_body.rs`:
`{lcol, arguments: Option<Vec<Expr>>}`. -/
structure ArgumentBodyDfn where
  lcol : OwnedSpan
  arguments : Option (List Expr)

/-- `arguments.into_inner().map(|pair| Expr::try_from(pair)).collect::<Result<Vec<Expr>,_>>()`
from `ArgumentBodyDfn::try_from`: lower each argument in order, fail-fast. -/
def exprsFromList : List Node → Except LangError (List Expr)
  | [] => .ok []
  | c :: rest => do
    let e ← Expr.tryFrom c
    let es ← exprsFromList rest
    return e :: es

/-- `ArgumentBodyDfn::try_from` (argument_body.rs lines 13-37): when an
`arguments` child exists, lower its children fail-fast into `Some(vec)`;
otherwise succeed with `arguments = None`. -/
def ArgumentBodyDfn.tryFrom (value : Node) : Except LangError ArgumentBodyDfn :=
  let argument_body_dfn_lcol := value.span
  match value.children.find? (fun pair => pair.rule == Rule.arguments) with
  | some arguments =>
    (exprsFromList arguments.children).map
      (fun arg_expr => ArgumentBodyDfn.mk argument_body_dfn_lcol (some arg_expr))
  | none => .ok (ArgumentBodyDfn.mk argument_body_dfn_lcol none)

/-- A trivial span for test nodes. -/
def sp0 : OwnedSpan := ⟨"", 0, 0⟩

/-- A distinguishable span for the malformed test node. -/
def spBad : OwnedSpan := ⟨"?", 0, 1⟩

/-- A parse-tree node for a `left`-tagged identifier capture. -/
def leftNode : Node := .mk .identifier (some "left") "x" sp0 []

/-- A parse-tree node for an `operator`-tagged capture with token `tok`. -/
def opNode (tok : String) : Node := .mk .expression (some "operator") tok sp0 []

/-- A binary-expression parse node with a `left` and an `operator` capture but
no `right` capture. -/
def binNode (tok : String) : Node := .mk .expression none "" sp0 [leftNode, opNode tok]

/-- A parse-tree node for a `path` rule. -/
def pathNode : Node := .mk .path none "m::p" sp0 []

/-- A well-formed `goto_stmt` parse node. -/
def gotoNode : Node := .mk .goto_stmt none "goto m::p;" sp0 [pathNode]

/-- A node whose rule fits neither a statement nor a primitive expression and
that has no tagged captures: statement lowering rejects it with "Invalid
statement", expression lowering with "Expected a value expression". -/
def badNode : Node := .mk .object none "?" spBad []

/-- A `block_stmt` parse node whose first child lowers fine and whose second
child fails. -/
def blockNode : Node := .mk .block_stmt none "" sp0 [gotoNode, badNode]

/-- A well-formed literal expression node. -/
def litNode : Node := .mk .literal none "5" sp0 []

/-- An `arguments` parse node whose first child lowers fine and whose second
child fails. -/
def argsNode : Node := .mk .arguments none "" sp0 [litNode, badNode]

/-- An `argument_body` parse node wrapping `argsNode`. -/
def argBodyNode : Node := .mk .argument_body none "" sp0 [argsNode]

end Lang

end Fabulist

namespace Fabulist.Core

/-- C3: for every Part with at least one dialogue and every state whose
`current_dialogue` is `None`, the first call to `Part::next` returns
`Ok(DialogueIndex{part_key: part.id, dialogue_index: 0})` and sets
`state.current_dialogue = Some(0)`, for any `choice_index`. -/
theorem C3_bootstrap_first_call (p : Part) (s : State) (ci : Option Nat)
    (h1 : s.current_dialogue = none) (h2 : p.dialogues ≠ []) :
    p.next s ci = (s.set_current_dialogue (some 0), .ok ⟨p.id, 0⟩) := by
  simp [Part.next, h1, h2]

theorem C3_bootstrap_first_call_witness :
    onePart.next ⟨none, none, []⟩ none =
      ((⟨none, none, []⟩ : State).set_current_dialogue (some 0), .ok ⟨"p1", 0⟩) :=
  C3_bootstrap_first_call onePart ⟨none, none, []⟩ none rfl (by simp [onePart])

/-- C10: in the bootstrap branch (state with `current_dialogue = None`, Part
nonempty) `Part::next` writes only `current_dialogue`: `current_part` and the
variable bindings are unchanged, and from a completely fresh state
`current_part` remains `None` after the first successful call. -/
theorem C10_bootstrap_frame (p : Part) (s : State) (ci : Option Nat)
    (h1 : s.current_dialogue = none) (h2 : p.dialogues ≠ []) :
    (p.next s ci).1.current_part = s.current_part ∧
    (p.next s ci).1.vars = s.vars ∧
    (s.current_part = none → (p.next s ci).1.current_part = none) := by
  simp [Part.next, h1, h2, State.set_current_dialogue]

theorem C10_bootstrap_frame_witness :
    (onePart.next ⟨none, none, []⟩ none).1.current_part = none :=
  (C10_bootstrap_frame onePart ⟨none, none, []⟩ none rfl
    (by simp [onePart])).2.2 rfl

/-- C4: when `current_dialogue = Some i` and dialogue `i` of the part returns
`Ok(Some(next_part_id))` (leaving state `s'`), `Part::next` sets
`current_part = Some(next_part_id)` and `current_dialogue = Some(0)` and
returns `Ok(DialogueIndex{part_key: next_part_id, dialogue_index: 0})`;
nothing constrains `next_part_id`, so the jump target is not validated. -/
theorem C4_jump (p : Part) (s : State) (ci : Option Nat) (i : Nat)
    (d : Dialogue) (s' : State) (pid : String)
    (h1 : s.current_dialogue = some i)
    (h2 : p.dialogues[i]? = some d)
    (h3 : d.next s ci = (s', .ok (some pid))) :
    p.next s ci =
      ((s'.set_current_part (some pid)).set_current_dialogue (some 0),
       .ok ⟨pid, 0⟩) := by
  simp [Part.next, Part.dialogue, h1, h2, h3]

theorem C4_jump_witness :
    (Part.mk "A" [⟨fun t _ => (t, .ok (some "B"))⟩]).next ⟨some "A", some 0, []⟩ none =
      ((((⟨some "A", some 0, []⟩ : State).set_current_part (some "B")).set_current_dialogue
          (some 0)),
       .ok ⟨"B", 0⟩) :=
  C4_jump (Part.mk "A" [⟨fun t _ => (t, .ok (some "B"))⟩]) ⟨some "A", some 0, []⟩
    none 0 ⟨fun t _ => (t, .ok (some "B"))⟩ ⟨some "A", some 0, []⟩ "B" rfl rfl rfl

/-- C5: when `current_dialogue = Some i`, dialogue `i` signals continue
(`Ok(None)`, leaving state `s'`) and index `i+1` exists, `Part::next` sets
`current_dialogue = Some(i+1)` and returns `(part.id, i+1)`; if `i+1` does not
exist it resets the state and fails with `EndOfStory`. Consequently for a part
with exactly one continue-only, state-preserving dialogue, starting from fresh
state: the first call bootstraps to index 0 and the second call fails with
`EndOfStory` leaving `current_part = None` and `current_dialogue = None`. -/
theorem C5_continue_and_exhaustion :
    (∀ (p : Part) (s : State) (ci : Option Nat) (i : Nat) (d : Dialogue) (s' : State),
      s.current_dialogue = some i →
      p.dialogues[i]? = some d →
      d.next s ci = (s', .ok none) →
      ((p.dialogues[i + 1]?.isSome →
          p.next s ci = (s'.set_current_dialogue (some (i + 1)), .ok ⟨p.id, i + 1⟩)) ∧
       (p.dialogues[i + 1]? = none →
          p.next s ci = (s'.reset, .error .EndOfStory)))) ∧
    (∀ (pid : String) (d : Dialogue) (v : List (String × String)) (c₁ c₂ : Option Nat),
      (∀ t c, d.next t c = (t, .ok none)) →
      (Part.mk pid [d]).next ⟨none, none, v⟩ c₁ = (⟨none, some 0, v⟩, .ok ⟨pid, 0⟩) ∧
      (Part.mk pid [d]).next ⟨none, some 0, v⟩ c₂ =
        (⟨none, none, v⟩, .error .EndOfStory)) := by
  constructor
  · intro p s ci i d s' h1 h2 h3
    constructor
    · intro h4
      simp [Part.next, Part.dialogue, h1, h2, h3, h4]
    · intro h4
      simp [Part.next, Part.dialogue, h1, h2, h3, h4]
  · intro pid d v c₁ c₂ hd
    constructor
    · simp [Part.next, State.set_current_dialogue]
    · simp [Part.next, Part.dialogue, hd, State.reset]

theorem C5_continue_and_exhaustion_witness :
    (Part.mk "p" [constDialogue]).next ⟨none, none, []⟩ none =
      (⟨none, some 0, []⟩, .ok ⟨"p", 0⟩) ∧
    (Part.mk "p" [constDialogue]).next ⟨none, some 0, []⟩ none =
      (⟨none, none, []⟩, .error .EndOfStory) :=
  C5_continue_and_exhaustion.2 "p" constDialogue [] none none (fun _ _ => rfl)

/-- C2: provided each dialogue of the part, when it propagates an error,
leaves the state unchanged or reset (the same guarantee the spec states for
the engine; `Dialogue` itself is a spec-modelled black box), every erroring
call to `Part::next` leaves the state either exactly as it was before the
call or in the fully reset state (`current_part = None`,
`current_dialogue = None`), never partially updated. -/
theorem C2_error_state_unchanged_or_reset (p : Part) (s : State)
    (ci : Option Nat) (s'' : State) (e : CoreError)
    (hd : ∀ d ∈ p.dialogues, ∀ t c t' err,
      d.next t c = (t', .error err) → t' = t ∨ t'.isReset)
    (h : p.next s ci = (s'', .error e)) :
    s'' = s ∨ s''.isReset := by
  unfold Part.next at h
  cases hcd : s.current_dialogue with
  | none =>
    simp [hcd] at h
    by_cases hne : p.dialogues.isEmpty
    · simp [hne] at h
      right
      rw [← h.1]
      exact ⟨rfl, rfl⟩
    · simp [hne] at h
  | some i =>
    simp [hcd] at h
    cases hget : p.dialogues[i]? with
    | none =>
      simp [Part.dialogue, hget] at h
      left
      exact h.1.symm
    | some d =>
      simp [Part.dialogue, hget] at h
      rcases hn : d.next s ci with ⟨s', r⟩
      rw [hn] at h
      cases r with
      | error err =>
        simp at h
        rcases hd d (List.getElem?_mem hget) s ci s' err hn with h1 | h1
        · left; rw [← h.1]; exact h1
        · right; rw [← h.1]; exact h1
      | ok next_result =>
        cases next_result with
        | some next_part => simp at h
        | none =>
          simp at h
          by_cases hnx : p.dialogues[i + 1]?.isSome
          · simp [hnx] at h
          · simp [hnx] at h
            right
            rw [← h.1]
            exact ⟨rfl, rfl⟩

theorem C2_error_state_unchanged_or_reset_witness :
    (⟨none, none, []⟩ : State) = ⟨some "q", none, []⟩ ∨
      (⟨none, none, []⟩ : State).isReset :=
  C2_error_state_unchanged_or_reset emptyPart ⟨some "q", none, []⟩ none
    ⟨none, none, []⟩ .EndOfStory (by simp [emptyPart]) rfl

/-- C6 counterexample: on a Part with zero dialogues and a state whose
`current_dialogue` is `Some(0)`, `Part::next` fails with
`DialogueDoesNotExist`, not `EndOfStory`, and the state is left with
`current_dialogue = Some(0)`, i.e. not reset — refuting the claim's "every
state" quantification. -/
theorem C6_counterexample :
    emptyPart.next stuckState none =
      (stuckState, .error (.DialogueDoesNotExist 0 "p")) ∧
    CoreError.DialogueDoesNotExist 0 "p" ≠ CoreError.EndOfStory ∧
    stuckState.current_dialogue ≠ none := by
  refine ⟨rfl, by decide, by decide⟩

/-- C6 amended: for every Part with zero dialogues, every state whose
`current_dialogue` is `None` (the "first call" situation) and every
`choice_index`, `Part::next` returns `Err(EndOfStory)` after resetting the
state; moreover on a Part with zero dialogues `Part::next` never returns a
`DialogueIndex`, whatever the state. -/
theorem C6_amended_empty_part (p : Part) (s : State) (ci : Option Nat)
    (hp : p.dialogues = []) :
    (s.current_dialogue = none → p.next s ci = (s.reset, .error .EndOfStory)) ∧
    (∀ di : DialogueIndex, (p.next s ci).2 ≠ .ok di) := by
  constructor
  · intro h1
    simp [Part.next, h1, hp]
  · intro di
    cases hcd : s.current_dialogue with
    | none => simp [Part.next, hcd, hp]
    | some i => simp [Part.next, hcd, hp, Part.dialogue]

theorem C6_amended_empty_part_witness :
    emptyPart.next ⟨some "q", none, []⟩ none =
      ((⟨some "q", none, []⟩ : State).reset, .error .EndOfStory) :=
  (C6_amended_empty_part emptyPart ⟨some "q", none, []⟩ none rfl).1 rfl

/-- C7: `Part::dialogue(index)` returns `Ok` with the index-th dialogue when
`index` is within range, and fails with
`DialogueDoesNotExist{dialogue_index: index, part_key: part.id}` exactly when
`index` is at or past the number of dialogues. -/
theorem C7_dialogue_lookup (p : Part) (index : Nat) :
    (index < p.dialogues.length →
      ∃ d, p.dialogues[index]? = some d ∧ p.dialogue index = .ok d) ∧
    (p.dialogues.length ≤ index →
      p.dialogue index = .error (.DialogueDoesNotExist index p.id)) := by
  constructor
  · intro h
    refine ⟨p.dialogues[index], ?_, ?_⟩
    · exact List.getElem?_eq_getElem h
    · simp [Part.dialogue, List.getElem?_eq_getElem h]
  · intro h
    simp [Part.dialogue, List.getElem?_eq_none h]

theorem C7_dialogue_lookup_witness :
    twoPart.dialogue 5 = .error (.DialogueDoesNotExist 5 "p2") :=
  (C7_dialogue_lookup twoPart 5).2 (by simp [twoPart])

end Fabulist.Core

namespace Fabulist.Lang

theorem except_isOk_iff {ε α : Type} (x : Except ε α) :
    x.isOk = true ↔ ∃ a, x = .ok a := by
  cases x <;> simp [Except.isOk, Except.toBool]

theorem stmtsFromList_nil : stmtsFromList [] = .ok [] := by
  rw [stmtsFromList]

theorem stmtsFromList_cons (c : Node) (rest : List Node) :
    stmtsFromList (c :: rest) =
      Stmt.tryFrom c >>= fun s => stmtsFromList rest >>= fun ss => pure (s :: ss) := by
  rw [stmtsFromList]

theorem stmtsFromList_isOk_iff (cs : List Node) :
    (stmtsFromList cs).isOk = true ↔ ∀ c ∈ cs, (Stmt.tryFrom c).isOk = true := by
  induction cs with
  | nil => simp [stmtsFromList_nil, Except.isOk, Except.toBool]
  | cons c rest ih =>
    rw [stmtsFromList_cons, List.forall_mem_cons, ← ih]
    cases hs : Stmt.tryFrom c <;> cases hr : stmtsFromList rest <;>
      simp [Except.isOk, Except.toBool, Except.instMonad, Except.bind, Except.pure]

theorem stmtsFromList_first_error (l₁ : List Node) (c : Node) (l₂ : List Node)
    (e : LangError)
    (hok : ∀ c' ∈ l₁, (Stmt.tryFrom c').isOk = true)
    (herr : Stmt.tryFrom c = .error e) :
    stmtsFromList (l₁ ++ c :: l₂) = .error e := by
  induction l₁ with
  | nil => rw [List.nil_append, stmtsFromList_cons, herr]; rfl
  | cons c' rest ih =>
    have h1 : (Stmt.tryFrom c').isOk = true := hok c' (List.mem_cons_self _ _)
    rcases (except_isOk_iff _).mp h1 with ⟨s, hs⟩
    rw [List.cons_append, stmtsFromList_cons, hs,
      ih (fun x hx => hok x (List.mem_cons_of_mem _ hx))]
    rfl

theorem exprsFromList_isOk_iff (cs : List Node) :
    (exprsFromList cs).isOk = true ↔ ∀ c ∈ cs, (Expr.tryFrom c).isOk = true := by
  induction cs with
  | nil => simp [exprsFromList, Except.isOk, Except.toBool]
  | cons c rest ih =>
    rw [exprsFromList, List.forall_mem_cons, ← ih]
    cases hs : Expr.tryFrom c <;> cases hr : exprsFromList rest <;>
      simp [Except.isOk, Except.toBool, Except.instMonad, Except.bind, Except.pure]

theorem exprsFromList_first_error (l₁ : List Node) (c : Node) (l₂ : List Node)
    (e : LangError)
    (hok : ∀ c' ∈ l₁, (Expr.tryFrom c').isOk = true)
    (herr : Expr.tryFrom c = .error e) :
    exprsFromList (l₁ ++ c :: l₂) = .error e := by
  induction l₁ with
  | nil => rw [List.nil_append, exprsFromList, herr]; rfl
  | cons c' rest ih =>
    have h1 : (Expr.tryFrom c').isOk = true := hok c' (List.mem_cons_self _ _)
    rcases (except_isOk_iff _).mp h1 with ⟨x, hx⟩
    rw [List.cons_append, exprsFromList, hx,
      ih (fun y hy => hok y (List.mem_cons_of_mem _ hy))]
    rfl

/-- C9: lowering of composite parse nodes is fail-fast: a `block_stmt` node
lowers successfully iff every child statement lowers successfully, and if the
children split as `l₁ ++ c :: l₂` with every node of `l₁` lowering
successfully and `c` failing with error `e`, the whole `BlockStmt::try_from`
returns exactly `e`; likewise an `argument_body` node whose `arguments` child
is found lowers successfully iff every argument expression lowers, the first
failing argument's error being returned whole. Since the result type carries
either a node or an error, no partial AST node is ever produced. -/
theorem C9_fail_fast :
    (∀ n : Node,
      ((BlockStmt.tryFrom n).isOk = true ↔
        ∀ c ∈ n.children, (Stmt.tryFrom c).isOk = true) ∧
      (∀ (l₁ : List Node) (c : Node) (l₂ : List Node) (e : LangError),
        n.children = l₁ ++ c :: l₂ →
        (∀ c' ∈ l₁, (Stmt.tryFrom c').isOk = true) →
        Stmt.tryFrom c = .error e →
        BlockStmt.tryFrom n = .error e)) ∧
    (∀ n arguments : Node,
      n.children.find? (fun pair => pair.rule == Rule.arguments) = some arguments →
      (((ArgumentBodyDfn.tryFrom n).isOk = true ↔
          ∀ c ∈ arguments.children, (Expr.tryFrom c).isOk = true) ∧
       (∀ (l₁ : List Node) (c : Node) (l₂ : List Node) (e : LangError),
         arguments.children = l₁ ++ c :: l₂ →
         (∀ c' ∈ l₁, (Expr.tryFrom c').isOk = true) →
         Expr.tryFrom c = .error e →
         ArgumentBodyDfn.tryFrom n = .error e))) := by
  constructor
  · intro n
    constructor
    · rw [BlockStmt.tryFrom, ← stmtsFromList_isOk_iff]
      cases hs : stmtsFromList n.children <;>
        simp [Except.map, Except.isOk, Except.toBool]
    · intro l₁ c l₂ e hsplit hok herr
      rw [BlockStmt.tryFrom, hsplit, stmtsFromList_first_error l₁ c l₂ e hok herr]
      rfl
  · intro n arguments hfind
    constructor
    · rw [ArgumentBodyDfn.tryFrom]
      simp only [hfind]
      rw [← exprsFromList_isOk_iff]
      cases hs : exprsFromList arguments.children <;>
        simp [hs, Except.map, Except.isOk, Except.toBool]
    · intro l₁ c l₂ e hsplit hok herr
      rw [ArgumentBodyDfn.tryFrom]
      simp only [hfind]
      rw [hsplit, exprsFromList_first_error l₁ c l₂ e hok herr]
      rfl

theorem C9_fail_fast_witness :
    BlockStmt.tryFrom blockNode = .error (LangError.map_span spBad "Invalid statement") :=
  (C9_fail_fast.1 blockNode).2 [gotoNode] badNode [] _ rfl
    (by
      intro c' hc'
      simp only [List.mem_singleton] at hc'
      subst hc'
      simp [Stmt.tryFrom, gotoNode, GotoStmt.tryFrom, Primitive.tryFrom, pathNode,
        Node.rule, Node.children, Node.span, Node.str, List.find?, Except.map,
        Except.isOk, Except.toBool])
    (by simp [Stmt.tryFrom, badNode, Node.rule, Node.span, LangError.map_span])

/-- C1 counterexample: a binary-expression parse node carrying a `left`
capture and an `operator` capture (`+`) but no `right` capture builds
successfully — `BinaryExpr::try_from` returns `Ok` with `operator = Some(+)`
and `right = None` instead of rejecting the input, refuting the claim that
the builder enforces "operator present ⇒ right present". -/
theorem C1_counterexample :
    BinaryExpr.tryFrom (binNode "+") =
      .ok (.mk (.primitive "x") (some .Addition) none) ∧
    (BinaryExpr.mk (.primitive "x") (some .Addition) none).operator =
      some .Addition ∧
    (BinaryExpr.mk (.primitive "x") (some .Addition) none).right = none := by
  refine ⟨?_, rfl, rfl⟩
  simp +decide [BinaryExpr.tryFrom, binNode, leftNode, opNode, findFirstTagged,
    Node.preorderList, Node.preorder, Node.tag, Node.children, Expr.tryFrom,
    Node.rule, Node.str, matchBinaryOperator, Node.span, sp0, List.find?,
    Except.map, Except.instMonad, Except.bind, Except.pure]

/-- C1 amended: `BinaryExpr::try_from` handles the `operator` and `right`
captures independently and never defaults either: in every successful build,
`operator` is present exactly when the operator capture was found and `right`
is present exactly when the right capture was found — in particular an input
with an operator but no right operand builds with `right = None` rather than
being rejected. -/
theorem C1_amended_operator_right_independent (n : Node) (b : BinaryExpr)
    (h : BinaryExpr.tryFrom n = .ok b) :
    (b.operator.isSome ↔ (findFirstTagged n.children "operator").isSome) ∧
    (b.right.isSome ↔ (findFirstTagged n.children "right").isSome) := by
  rw [BinaryExpr.tryFrom] at h
  split at h
  · rename_i left hl
    cases hel : Expr.tryFrom left
    · rw [hel] at h
      simp [Except.instMonad, Except.bind] at h
    · rw [hel] at h
      simp only [Except.instMonad, Except.bind] at h
      split at h
      · rename_i operator hop
        cases hmo : matchBinaryOperator operator.str operator.span
        · rw [hmo] at h
          simp [Except.instMonad, Except.bind, Except.map] at h
        · rw [hmo] at h
          simp only [Except.instMonad, Except.bind, Except.map] at h
          split at h
          · rename_i right hr
            cases her : Expr.tryFrom right
            · rw [her] at h
              simp [Except.instMonad, Except.bind, Except.map] at h
            · rw [her] at h
              simp only [Except.instMonad, Except.bind, Except.map,
                Except.pure] at h
              cases h
              simp [BinaryExpr.operator, BinaryExpr.right, hop, hr]
          · rename_i hr
            simp only [Except.instMonad, Except.bind, Except.pure] at h
            cases h
            simp [BinaryExpr.operator, BinaryExpr.right, hop, hr]
      · rename_i hop
        simp only [Except.instMonad, Except.bind, Except.pure] at h
        split at h
        · rename_i right hr
          cases her : Expr.tryFrom right
          · rw [her] at h
            simp [Except.instMonad, Except.bind, Except.map] at h
          · rw [her] at h
            simp only [Except.instMonad, Except.bind, Except.map,
              Except.pure] at h
            cases h
            simp [BinaryExpr.operator, BinaryExpr.right, hop, hr]
        · rename_i hr
          try simp only [Except.instMonad, Except.bind, Except.pure] at h
          cases h
          simp [BinaryExpr.operator, BinaryExpr.right, hop, hr]
  · rename_i hl
    exact Except.noConfusion h

theorem C1_amended_operator_right_independent_witness :
    ((BinaryExpr.mk (.primitive "x") (some .Addition) none).operator.isSome ↔
      (findFirstTagged (binNode "+").children "operator").isSome) ∧
    ((BinaryExpr.mk (.primitive "x") (some .Addition) none).right.isSome ↔
      (findFirstTagged (binNode "+").children "right").isSome) :=
  C1_amended_operator_right_independent (binNode "+")
    (.mk (.primitive "x") (some .Addition) none)
    (by simp +decide [BinaryExpr.tryFrom, binNode, leftNode, opNode, findFirstTagged,
      Node.preorderList, Node.preorder, Node.tag, Node.children, Expr.tryFrom,
      Node.rule, Node.str, matchBinaryOperator, Node.span, sp0, List.find?,
      Except.map, Except.instMonad, Except.bind, Except.pure])

/-- C8: for each of the twelve operator token strings, building a binary
expression whose operator capture carries that token yields the matching
`BinaryOperator` variant; for any other token string in the operator capture
the build fails with the "Invalid binary operator" diagnostic anchored at
the operator capture's span, never a default variant. -/
theorem C8_operator_token_mapping :
    (BinaryExpr.tryFrom (binNode "/") = .ok (.mk (.primitive "x") (some .Divide) none) ∧
     BinaryExpr.tryFrom (binNode "*") = .ok (.mk (.primitive "x") (some .Multiply) none) ∧
     BinaryExpr.tryFrom (binNode "+") = .ok (.mk (.primitive "x") (some .Addition) none) ∧
     BinaryExpr.tryFrom (binNode "-") = .ok (.mk (.primitive "x") (some .Subtraction) none) ∧
     BinaryExpr.tryFrom (binNode ">") = .ok (.mk (.primitive "x") (some .GreaterThan) none) ∧
     BinaryExpr.tryFrom (binNode ">=") = .ok (.mk (.primitive "x") (some .GreaterEqual) none) ∧
     BinaryExpr.tryFrom (binNode "<") = .ok (.mk (.primitive "x") (some .LessThan) none) ∧
     BinaryExpr.tryFrom (binNode "<=") = .ok (.mk (.primitive "x") (some .LessEqual) none) ∧
     BinaryExpr.tryFrom (binNode "==") = .ok (.mk (.primitive "x") (some .EqualEqual) none) ∧
     BinaryExpr.tryFrom (binNode "!=") = .ok (.mk (.primitive "x") (some .NotEqual) none) ∧
     BinaryExpr.tryFrom (binNode "&&") = .ok (.mk (.primitive "x") (some .And) none) ∧
     BinaryExpr.tryFrom (binNode "||") = .ok (.mk (.primitive "x") (some .Or) none)) ∧
    (∀ tok : String,
      tok ∉ (["/", "*", "+", "-", ">", ">=", "<", "<=", "==", "!=", "&&", "||"] : List String) →
      BinaryExpr.tryFrom (binNode tok) =
        .error (LangError.map_span sp0 "Invalid binary operator")) := by
  constructor
  · refine ⟨?_, ?_, ?_, ?_, ?_, ?_, ?_, ?_, ?_, ?_, ?_, ?_⟩ <;>
      simp +decide [BinaryExpr.tryFrom, binNode, leftNode, opNode, findFirstTagged,
        Node.preorderList, Node.preorder, Node.tag, Node.children, Expr.tryFrom,
        Node.rule, Node.str, matchBinaryOperator, Node.span, sp0, List.find?,
        Except.map, Except.instMonad, Except.bind, Except.pure]
  · intro tok h
    simp only [List.mem_cons, List.not_mem_nil, or_false] at h
    push_neg at h
    obtain ⟨h1, h2, h3, h4, h5, h6, h7, h8, h9, h10, h11, h12⟩ := h
    simp [BinaryExpr.tryFrom, binNode, leftNode, opNode, findFirstTagged,
      Node.preorderList, Node.preorder, Node.tag, Node.children, Expr.tryFrom,
      Node.rule, Node.str, matchBinaryOperator, Node.span, sp0, List.find?,
      Except.map, Except.instMonad, Except.bind, Except.pure,
      h1, h2, h3, h4, h5, h6, h7, h8, h9, h10, h11, h12]

theorem C8_operator_token_mapping_witness :
    BinaryExpr.tryFrom (binNode "%") =
      .error (LangError.map_span sp0 "Invalid binary operator") :=
  C8_operator_token_mapping.2 "%" (by decide)

end Fabulist.Lang
